import Mathlib

set_option maxRecDepth 20000

/-!
Verification of the imreg registration module (imreg/register.py) against its
natural-language specification.

We give a shallow embedding of the module in Lean 4.  Machine floats are
modelled as rationals (the module's comparisons and damping updates are exact
decimal operations, so the control-flow structure is faithfully captured);
numpy nd-arrays are modelled as lists (vectors) and lists of lists (matrices).
The three pluggable collaborators (deformation model, similarity metric,
sampler) are abstract function fields of a problem record, exactly matching
the duck-typed interface the engine consumes.  np.linalg.inv is modelled by
Gauss-Jordan elimination; on a singular matrix numpy raises, which none of the
checked claims exercise, so the model leaves the unpivotable columns in place.

The module is written for Python 2 (the verbose branch uses the
print-statement idiom), so the verbose output is modelled as an appended log
that the rest of the state never reads.

Mutation of the caller-supplied parameter array by the in-place update
p += deltaP is modelled explicitly: the state tracks the current contents of
the caller's array and a flag recording whether the live local p still aliases
that array (a revert rebinds p to a fresh copy, dropping the alias).
-/

/-! ### numpy primitives used by the module -/

/-- Elementwise sum of two vectors: the in-place numpy update p += deltaP. -/
def vecAdd (xs ys : List ℚ) : List ℚ := List.zipWith (· + ·) xs ys

/-- Elementwise difference of two vectors. -/
def vecSub (xs ys : List ℚ) : List ℚ := List.zipWith (· - ·) xs ys

/-- Vector dot product: np.dot on two 1-D arrays. -/
def npdot (xs ys : List ℚ) : ℚ := (List.zipWith (· * ·) xs ys).sum

/-- Matrix transpose (rows of the result are the columns of the argument). -/
def matT (A : List (List ℚ)) : List (List ℚ) := A.transpose

/-- Matrix-matrix product: np.dot on two 2-D arrays. -/
def matMul (A B : List (List ℚ)) : List (List ℚ) :=
  A.map (fun row => (matT B).map (fun col => npdot row col))

/-- Matrix-vector product: np.dot of a 2-D and a 1-D array. -/
def matVec (A : List (List ℚ)) (v : List ℚ) : List ℚ :=
  A.map (fun row => npdot row v)

/-- Main diagonal of a matrix: np.diagonal. -/
def npdiagonal (A : List (List ℚ)) : List ℚ :=
  A.enum.map (fun ir => ir.2.getD ir.1 0)

/-- Square matrix with the given diagonal: np.diag of a vector. -/
def npdiag (v : List ℚ) : List (List ℚ) :=
  v.enum.map (fun ix =>
    (List.range v.length).map (fun j => if ix.1 = j then ix.2 else 0))

/-- Elementwise sum of two matrices: the in-place numpy update H += D. -/
def matAdd (A B : List (List ℚ)) : List (List ℚ) := List.zipWith vecAdd A B

/-- Multiply every entry of a row by a scalar. -/
def scaleRow (c : ℚ) (r : List ℚ) : List ℚ := r.map (fun x => c * x)

/-- Swap two rows of a matrix. -/
def rowSwap (A : List (List ℚ)) (i j : ℕ) : List (List ℚ) :=
  (A.set i (A.getD j [])).set j (A.getD i [])

/-- Index of the first row at or below the diagonal with a nonzero pivot
entry in the given column. -/
def gjFindPivot (A : List (List ℚ)) (col : ℕ) : Option ℕ :=
  (List.range A.length).find?
    (fun r => decide (col ≤ r) && decide ((A.getD r []).getD col 0 ≠ 0))

/-- One Gauss-Jordan elimination round: bring a pivot to the diagonal of the
given column, normalise it, and clear the column in every other row.  If the
column has no pivot the matrix is singular (numpy would raise); the model
leaves the matrix unchanged in that round. -/
def gjElim (A : List (List ℚ)) (col : ℕ) : List (List ℚ) :=
  match gjFindPivot A col with
  | none => A
  | some r =>
    let A1 := rowSwap A col r
    let prow := scaleRow ((A1.getD col []).getD col 0)⁻¹ (A1.getD col [])
    A1.enum.map (fun irow =>
      if irow.1 = col then prow
      else vecSub irow.2 (scaleRow (irow.2.getD col 0) prow))

/-- Model of np.linalg.inv by Gauss-Jordan elimination on the matrix
augmented with the identity. -/
def linalgInv (A : List (List ℚ)) : List (List ℚ) :=
  let n := A.length
  let aug := A.enum.map (fun irow =>
    irow.2 ++ (List.range n).map (fun j => if irow.1 = j then (1 : ℚ) else 0))
  let red := (List.range n).foldl gjElim aug
  red.map (fun row => row.drop n)

/-! ### Coordinates (register.py lines 6-28) -/

/-- Lean model of the Coordinates container.  The tensor is stored as its two
component arrays (row indices and column indices per grid cell); homogenous is
the 3-row array built from the flattened tensor components. -/
structure CoordsV where
  domain : List ℤ
  tensor0 : List (List ℚ)
  tensor1 : List (List ℚ)
  homogenous : List (List ℚ)
deriving DecidableEq, Repr

/-- Model of Coordinates.__init__.  np.mgrid[0.:domain[1], 0.:domain[3]]
yields row indices 0..domain[1]-1 and column indices 0..domain[3]-1 (the
row-start domain[0] and column-start domain[2] are never read); the homogenous
array holds the flattened column indices, then the flattened row indices, then
a row of ones. -/
def coordinatesInit (domain : List ℤ) : CoordsV :=
  let nR := (domain.getD 1 0).toNat
  let nC := (domain.getD 3 0).toNat
  let t0 := (List.range nR).map (fun (i : ℕ) => (List.range nC).map (fun _ => (i : ℚ)))
  let t1 := (List.range nR).map (fun _ => (List.range nC).map (fun (j : ℕ) => (j : ℚ)))
  { domain := domain
    tensor0 := t0
    tensor1 := t1
    homogenous := [t1.flatten, t0.flatten, List.replicate (nR * nC) (1 : ℚ)] }

/-! ### RegisterData (register.py lines 31-53) -/

/-- Errors a RegisterData construction can surface.  The code contains no
shape validation and no InvalidShapeError class; the constructor named here
exists only so the spec's claimed behaviour is statable.  indexError models
the Python IndexError raised by reading data.shape[1] on an array of fewer
than two dimensions. -/
inductive PyError where
  | indexError
  | invalidShapeError
deriving DecidableEq, Repr

/-- Lean model of a constructed RegisterData.  Construction control flow
depends only on the shape of the input array (pixel values are copied to
double precision unchanged), so the model carries the shape. -/
structure RegisterDataV where
  shape : List ℕ
  coords : CoordsV
deriving DecidableEq, Repr

/-- Model of RegisterData.__init__: no dimensionality check is performed; when
no coordinates are supplied the domain is derived from shape[0] and shape[1],
which raises IndexError when the array has fewer than two dimensions. -/
def registerDataInit (shape : List ℕ) (coords : Option CoordsV) :
    Except PyError RegisterDataV :=
  match coords with
  | some c => .ok { shape := shape, coords := c }
  | none =>
    match (shape[0]? : Option ℕ), (shape[1]? : Option ℕ) with
    | some r, some c =>
        .ok { shape := shape, coords := coordinatesInit [0, (r : ℤ), 0, (c : ℤ)] }
    | _, _ => .error .indexError

/-! ### The optimization step record (register.py lines 56-76) -/

/-- Lean model of optStep: one iteration's snapshot of the normalised error,
the (copied) parameter vector, the (copied) update vector, and the
decreasing flag. -/
structure OptStep where
  error : ℚ
  p : List ℚ
  deltaP : List ℚ
  decreasing : Bool
deriving DecidableEq, Repr

/-! ### Register (register.py lines 79-286) -/

/-- Upper bound on the number of iterations (Register.MAX_ITER). -/
def MAX_ITER : ℕ := 200

/-- Upper bound on the bad-step counter (Register.MAX_BAD). -/
def MAX_BAD : ℕ := 5

/-- Model of Register.__deltaP: H = JᵀJ, damped by adding alpha times its own
diagonal to the diagonal, then deltaP = H⁻¹ Jᵀ e.  The optional parameter p of
the Python function is unused there and omitted here. -/
def deltaPcalc (J : List (List ℚ)) (e : List ℚ) (alpha : ℚ) : List ℚ :=
  let H := matMul (matT J) J
  let H2 := matAdd H (npdiag ((npdiagonal H).map (fun x => alpha * x)))
  matVec (linalgInv H2) (matVec (matT J) e)

/-- Model of Register.__dampening. -/
def dampening (alpha : ℚ) (decreasing : Bool) : ℚ :=
  if decreasing then alpha / 10 else alpha * 10

/-- Bundle of the engine's inputs: the two collaborator-independent data
fields of the call (image and template pixel data, and the pixel count of the
image used to normalise the error) together with the duck-typed operations of
the model, metric and sampler collaborators, already bound to the floating
image's coordinate grid as the first three lines of register do.  W is the
type of warp fields, Img the type of (possibly resampled) pixel arrays. -/
structure RegProblem (W Img : Type) where
  identity : List ℚ
  warp : List ℚ → W
  samplerF : Img → W → Img
  metricError : Img → Img → List ℚ
  jacobian : Img → List ℚ → List (List ℚ)
  imageData : Img
  templateData : Img
  shapeProd : ℚ

/-- Observable events on the verbose side channel: the per-iteration progress
print (iteration index, current parameters, current error) and the
stagnation-break notice. -/
inductive LogEntry where
  | progress (iter : ℕ) (p : List ℚ) (err : ℚ)
  | stagnationNote
deriving DecidableEq, Repr

/-- State of the register loop between iterations.  p is the value of the
live local parameter vector; pAliased records whether that local still refers
to the caller-supplied array, and caller holds the current contents of the
caller-supplied array (the one heap cell the loop mutates in place). -/
structure RegState (Img : Type) where
  p : List ℚ
  pAliased : Bool
  caller : List ℚ
  deltaP : List ℚ
  alpha : ℚ
  search : List OptStep
  badSteps : ℕ
  bestStep : Option OptStep
  warpedImage : Option Img
  log : List LogEntry

/-- Normalised error of the current iteration (register.py line 224):
np.abs(e).sum() / np.prod(image.data.shape). -/
def stepError (e : List ℚ) (shapeProd : ℚ) : ℚ :=
  (e.map (fun x => |x|)).sum / shapeProd

/-- Warped (resampled) image computed at the top of an iteration from the
current parameters (register.py lines 212-217; the reshape is a view and does
not change values). -/
def iterWarped {W Img : Type} (prob : RegProblem W Img) (st : RegState Img) : Img :=
  prob.samplerF prob.imageData (prob.warp st.p)

/-- Residual array of the current iteration (register.py line 220). -/
def iterResidual {W Img : Type} (prob : RegProblem W Img) (st : RegState Img) : List ℚ :=
  prob.metricError (iterWarped prob st) prob.templateData

/-- Normalised scalar error of the current iteration (register.py line 224). -/
def iterError {W Img : Type} (prob : RegProblem W Img) (st : RegState Img) : ℚ :=
  stepError (iterResidual prob st) prob.shapeProd

/-- Tail of one loop iteration (register.py lines 271-284): compute the
Jacobian at the (possibly reverted) parameters, compute deltaP, break without
touching p if deltaPᵀdeltaP is below the threshold, otherwise apply the
in-place update p += deltaP (which also rewrites the caller's array when the
live p still aliases it).  The returned flag is false when the loop breaks. -/
def tailPhase {W Img : Type} (prob : RegProblem W Img) (st : RegState Img)
    (warped : Img) (e : List ℚ) : RegState Img × Bool :=
  let J := prob.jacobian warped st.p
  let dP := deltaPcalc J e st.alpha
  if npdot dP dP < 1 / 10000 then
    ({ st with deltaP := dP }, false)
  else
    ({ st with deltaP := dP
               p := vecAdd st.p dP
               caller := if st.pAliased then vecAdd st.p dP else st.caller }, true)

/-- One full iteration of the register loop (register.py lines 209-284).
The returned flag is false exactly when the Python loop breaks during this
iteration (stagnation or convergence). -/
def stepIter {W Img : Type} (prob : RegProblem W Img) (verbose : Bool)
    (iter : ℕ) (st : RegState Img) : RegState Img × Bool :=
  let warped := prob.samplerF prob.imageData (prob.warp st.p)
  let e := prob.metricError warped prob.templateData
  let err := stepError e prob.shapeProd
  let step0 : OptStep := { error := err, p := st.p, deltaP := st.deltaP, decreasing := true }
  let best0 := st.bestStep.getD step0
  let log1 := if verbose then st.log ++ [LogEntry.progress iter st.p err] else st.log
  if st.search.isEmpty then
    tailPhase prob
      { st with search := st.search ++ [step0]
                bestStep := some best0
                warpedImage := some warped
                log := log1 } warped e
  else
    let dec := decide (err < best0.error)
    let step1 : OptStep := { error := err, p := st.p, deltaP := st.deltaP, decreasing := dec }
    let alpha1 := dampening st.alpha dec
    if dec then
      tailPhase prob
        { st with search := st.search ++ [step1]
                  bestStep := some step1
                  alpha := alpha1
                  warpedImage := some warped
                  log := log1 } warped e
    else
      if st.badSteps + 1 > MAX_BAD then
        ({ st with search := st.search ++ [step1]
                   bestStep := some best0
                   alpha := alpha1
                   badSteps := st.badSteps + 1
                   warpedImage := some warped
                   log := if verbose then log1 ++ [LogEntry.stagnationNote] else log1 },
         false)
      else
        tailPhase prob
          { st with search := st.search ++ [step1]
                    bestStep := some best0
                    alpha := alpha1
                    badSteps := st.badSteps + 1
                    p := best0.p
                    pAliased := false
                    warpedImage := some warped
                    log := log1 } warped e

/-- The for-loop of register.py line 209, with fuel counting the remaining
iterations and iter the current iteration index. -/
def regLoop {W Img : Type} (prob : RegProblem W Img) (verbose : Bool) :
    ℕ → ℕ → RegState Img → RegState Img
  | 0, _, st => st
  | fuel + 1, iter, st =>
    let r := stepIter prob verbose iter st
    if r.2 then regLoop prob verbose fuel (iter + 1) r.1 else r.1

/-- Initial loop state (register.py lines 198-207): p defaults to the model's
identity, deltaP to zeros of p's shape, alpha to 1e-4; the trace is empty, the
bad-step counter zero, and there is no best step or warped image yet.  When
the caller supplies p the live local aliases the caller's array. -/
def mkInitState {W Img : Type} (prob : RegProblem W Img)
    (p0 : Option (List ℚ)) (alpha0 : Option ℚ) : RegState Img :=
  let p := p0.getD prob.identity
  { p := p
    pAliased := p0.isSome
    caller := p
    deltaP := p.map (fun _ => 0)
    alpha := alpha0.getD (1 / 10000)
    search := []
    badSteps := 0
    bestStep := none
    warpedImage := none
    log := [] }

/-- Observable outcome of a register call: the returned triple plus, for the
frame-effect claims, the final contents of the caller-supplied array, the
final value of the live parameter vector, and the verbose log. -/
structure RegResult (Img : Type) where
  bestStep : Option OptStep
  warpedImage : Option Img
  search : List OptStep
  callerArray : List ℚ
  finalP : List ℚ
  log : List LogEntry

/-- Model of Register.register (register.py lines 164-286). -/
def register {W Img : Type} (prob : RegProblem W Img) (p0 : Option (List ℚ))
    (alpha0 : Option ℚ) (verbose : Bool) : RegResult Img :=
  let stf := regLoop prob verbose MAX_ITER 0 (mkInitState prob p0 alpha0)
  { bestStep := stf.bestStep
    warpedImage := stf.warpedImage
    search := stf.search
    callerArray := stf.caller
    finalP := stf.p
    log := stf.log }

/-! ### Spec-side definition for the coordinate-grid claim -/

/-- Follows the spec wording for the Coordinates contract, for comparison with
the code: the row-index component of a pixel grid covering rows [r0, r1) and
columns [c0, c1). -/
def specClaimTensor0 (r0 r1 c0 c1 : ℤ) : List (List ℚ) :=
  (List.range (r1 - r0).toNat).map (fun (i : ℕ) =>
    (List.range (c1 - c0).toNat).map (fun _ => ((r0 : ℚ) + (i : ℚ))))

/-! ### Concrete problem instances and states used by witnesses -/

/-- Registration problem with constant residual and constant Jacobian: the
error never decreases, so a run stagnates.  Warp fields and images are both
modelled as rationals. -/
def cProb : RegProblem ℚ ℚ :=
  { identity := [0]
    warp := fun p => p.getD 0 0
    samplerF := fun _ w => w
    metricError := fun _ _ => [1]
    jacobian := fun _ _ => [[1]]
    imageData := 0
    templateData := 0
    shapeProd := 1 }

/-- Registration problem whose residual equals the warped value, with
Jacobian -1: each accepted update shrinks the error and the run converges. -/
def dProb : RegProblem ℚ ℚ :=
  { identity := [0]
    warp := fun p => p.getD 0 0
    samplerF := fun _ w => w
    metricError := fun wi _ => [wi]
    jacobian := fun _ _ => [[-1]]
    imageData := 0
    templateData := 0
    shapeProd := 1 }

/-- Registration problem with an empty residual and empty Jacobian: deltaP is
the empty vector, so the run converges during the first iteration before any
parameter update is applied. -/
def eProb : RegProblem ℚ ℚ :=
  { identity := [0]
    warp := fun p => p.getD 0 0
    samplerF := fun _ w => w
    metricError := fun _ _ => []
    jacobian := fun _ _ => []
    imageData := 0
    templateData := 0
    shapeProd := 1 }

/-- Initial state of the run of cProb with caller-supplied parameters [1] and
caller-supplied damping 0 (damping 0 keeps the whole run in integer
arithmetic). -/
def cSt0 : RegState ℚ := mkInitState cProb (some [1]) (some 0)

/-- State after the first iteration of the cProb run. -/
def cSt1 : RegState ℚ := (stepIter cProb false 0 cSt0).1

/-- State after the second iteration of the cProb run (a non-improving step,
which reverts the live parameters to a fresh copy of the best step's). -/
def cSt2 : RegState ℚ := (stepIter cProb false 1 cSt1).1

/-- The first (and best) step record of the cProb run. -/
def cBest : OptStep := { error := 1, p := [1], deltaP := [0], decreasing := true }

/-- Hand-built mid-run state with damping 1: its trace is nonempty, its best
step is cBest, and the current error (1) does not improve on the best. -/
def aSt : RegState ℚ :=
  { p := [1]
    pAliased := true
    caller := [1]
    deltaP := [0]
    alpha := 1
    search := [cBest]
    badSteps := 0
    bestStep := some cBest
    warpedImage := some 1
    log := [] }

/-! ### Invariants and projections used by the engine theorems -/

/-- Invariant tying the best step to the trace: when no best step exists the
trace is empty, and the best step is a member of the trace of minimal error. -/
def BestInv {Img : Type} (st : RegState Img) : Prop :=
  (st.bestStep = none → st.search = []) ∧
  ∀ b, st.bestStep = some b → b ∈ st.search ∧ ∀ s ∈ st.search, b.error ≤ s.error

/-- State with the verbose log removed, for comparing runs that differ only
in the verbose flag. -/
def stripLog {Img : Type} (st : RegState Img) : RegState Img := { st with log := [] }

/-! ### Helper lemmas about the loop body -/

/-- The tail of an iteration never changes the bad-step counter. -/
@[simp] theorem tailPhase_badSteps {W Img : Type} (prob : RegProblem W Img)
    (s : RegState Img) (w : Img) (e : List ℚ) :
    (tailPhase prob s w e).1.badSteps = s.badSteps := by
  simp only [tailPhase]; split_ifs <;> simp

/-- The tail of an iteration never changes the trace. -/
@[simp] theorem tailPhase_search {W Img : Type} (prob : RegProblem W Img)
    (s : RegState Img) (w : Img) (e : List ℚ) :
    (tailPhase prob s w e).1.search = s.search := by
  simp only [tailPhase]; split_ifs <;> simp

/-- The tail of an iteration never changes the best step. -/
@[simp] theorem tailPhase_bestStep {W Img : Type} (prob : RegProblem W Img)
    (s : RegState Img) (w : Img) (e : List ℚ) :
    (tailPhase prob s w e).1.bestStep = s.bestStep := by
  simp only [tailPhase]; split_ifs <;> simp

/-- The tail of an iteration never changes the damping factor. -/
@[simp] theorem tailPhase_alpha {W Img : Type} (prob : RegProblem W Img)
    (s : RegState Img) (w : Img) (e : List ℚ) :
    (tailPhase prob s w e).1.alpha = s.alpha := by
  simp only [tailPhase]; split_ifs <;> simp

/-- The tail of an iteration never changes the stored warped image. -/
@[simp] theorem tailPhase_warpedImage {W Img : Type} (prob : RegProblem W Img)
    (s : RegState Img) (w : Img) (e : List ℚ) :
    (tailPhase prob s w e).1.warpedImage = s.warpedImage := by
  simp only [tailPhase]; split_ifs <;> simp

/-- The tail of an iteration never changes the verbose log. -/
@[simp] theorem tailPhase_log {W Img : Type} (prob : RegProblem W Img)
    (s : RegState Img) (w : Img) (e : List ℚ) :
    (tailPhase prob s w e).1.log = s.log := by
  simp only [tailPhase]; split_ifs <;> simp

/-- The tail of an iteration never changes the aliasing flag. -/
@[simp] theorem tailPhase_pAliased {W Img : Type} (prob : RegProblem W Img)
    (s : RegState Img) (w : Img) (e : List ℚ) :
    (tailPhase prob s w e).1.pAliased = s.pAliased := by
  simp only [tailPhase]; split_ifs <;> simp

/-- The bad-step counter never decreases across one iteration. -/
theorem stepIter_badSteps_mono {W Img : Type} (prob : RegProblem W Img)
    (v : Bool) (i : ℕ) (st : RegState Img) :
    st.badSteps ≤ (stepIter prob v i st).1.badSteps := by
  simp only [stepIter]
  split_ifs <;> simp

/-- Every iteration appends exactly one step record to the trace. -/
theorem stepIter_search_len {W Img : Type} (prob : RegProblem W Img)
    (v : Bool) (i : ℕ) (st : RegState Img) :
    (stepIter prob v i st).1.search.length = st.search.length + 1 := by
  simp only [stepIter]
  split_ifs <;> simp

/-- Every iteration leaves a best step and a warped image in the state. -/
theorem stepIter_isSome {W Img : Type} (prob : RegProblem W Img)
    (v : Bool) (i : ℕ) (st : RegState Img) :
    (stepIter prob v i st).1.bestStep.isSome = true ∧
    (stepIter prob v i st).1.warpedImage.isSome = true := by
  simp only [stepIter]
  split_ifs <;> simp

/-- The bad-step counter never decreases across the rest of the loop. -/
theorem regLoop_badSteps_mono {W Img : Type} (prob : RegProblem W Img)
    (v : Bool) : ∀ (fuel i : ℕ) (st : RegState Img),
    st.badSteps ≤ (regLoop prob v fuel i st).badSteps := by
  intro fuel
  induction fuel with
  | zero => intro i st; simp [regLoop]
  | succ n ih =>
    intro i st
    simp only [regLoop]
    split
    · exact le_trans (stepIter_badSteps_mono prob v i st) (ih (i + 1) _)
    · exact stepIter_badSteps_mono prob v i st

/-- The loop appends at most one step record per unit of fuel. -/
theorem regLoop_search_len {W Img : Type} (prob : RegProblem W Img)
    (v : Bool) : ∀ (fuel i : ℕ) (st : RegState Img),
    (regLoop prob v fuel i st).search.length ≤ st.search.length + fuel := by
  intro fuel
  induction fuel with
  | zero => intro i st; simp [regLoop]
  | succ n ih =>
    intro i st
    simp only [regLoop]
    split
    · calc (regLoop prob v n (i + 1) (stepIter prob v i st).1).search.length
          ≤ (stepIter prob v i st).1.search.length + n := ih (i + 1) _
        _ = st.search.length + 1 + n := by rw [stepIter_search_len]
        _ ≤ st.search.length + (n + 1) := by omega
    · calc (stepIter prob v i st).1.search.length
          = st.search.length + 1 := stepIter_search_len prob v i st
        _ ≤ st.search.length + (n + 1) := by omega

/-- Once the state carries a best step and warped image, the loop keeps them. -/
theorem regLoop_isSome_preserve {W Img : Type} (prob : RegProblem W Img)
    (v : Bool) : ∀ (fuel i : ℕ) (st : RegState Img),
    st.bestStep.isSome = true → st.warpedImage.isSome = true →
    (regLoop prob v fuel i st).bestStep.isSome = true ∧
    (regLoop prob v fuel i st).warpedImage.isSome = true := by
  intro fuel
  induction fuel with
  | zero => intro i st h1 h2; simpa [regLoop] using ⟨h1, h2⟩
  | succ n ih =>
    intro i st _ _
    simp only [regLoop]
    split
    · exact ih (i + 1) _ (stepIter_isSome prob v i st).1 (stepIter_isSome prob v i st).2
    · exact stepIter_isSome prob v i st

/-- A loop run with at least one unit of fuel yields a best step and a
warped image. -/
theorem regLoop_isSome_of_pos {W Img : Type} (prob : RegProblem W Img)
    (v : Bool) (fuel i : ℕ) (st : RegState Img) :
    (regLoop prob v (fuel + 1) i st).bestStep.isSome = true ∧
    (regLoop prob v (fuel + 1) i st).warpedImage.isSome = true := by
  simp only [regLoop]
  split
  · exact regLoop_isSome_preserve prob v fuel (i + 1) _
      (stepIter_isSome prob v i st).1 (stepIter_isSome prob v i st).2
  · exact stepIter_isSome prob v i st

/-- One iteration preserves the best-step/trace invariant. -/
theorem stepIter_bestInv {W Img : Type} (prob : RegProblem W Img)
    (v : Bool) (i : ℕ) (st : RegState Img) (h : BestInv st) :
    BestInv (stepIter prob v i st).1 := by
  obtain ⟨h0, h1⟩ := h
  simp only [stepIter]
  cases hs : st.search with
  | nil =>
    have hbn : st.bestStep = none := by
      cases hb : st.bestStep with
      | none => rfl
      | some b =>
        have := (h1 b hb).1
        rw [hs] at this
        exact absurd this (List.not_mem_nil b)
    simp only [hs, List.isEmpty_nil, if_true]
    constructor
    · intro hcontra
      rw [tailPhase_bestStep] at hcontra
      simp at hcontra
    · intro b2 hb2
      rw [tailPhase_bestStep] at hb2
      rw [tailPhase_search]
      rw [hbn] at hb2
      simp at hb2
      subst hb2
      simp [hs]
  | cons a tl =>
    obtain ⟨b, hb⟩ : ∃ b, st.bestStep = some b := by
      cases hbn : st.bestStep with
      | none => rw [h0 hbn] at hs; exact absurd hs (by simp)
      | some b => exact ⟨b, rfl⟩
    have hmem : b ∈ st.search := (h1 b hb).1
    have hbound : ∀ s ∈ st.search, b.error ≤ s.error := (h1 b hb).2
    simp only [hs, List.isEmpty_cons, if_false, hb, Option.getD_some, Bool.false_eq_true]
    rw [← hs]
    by_cases hd :
      stepError (prob.metricError (prob.samplerF prob.imageData (prob.warp st.p))
        prob.templateData) prob.shapeProd < b.error
    · simp only [hd, decide_True, eq_self_iff_true, if_true]
      constructor
      · intro hcontra
        rw [tailPhase_bestStep] at hcontra
        simp at hcontra
      · intro b2 hb2
        rw [tailPhase_bestStep] at hb2
        rw [tailPhase_search]
        simp only [Option.some.injEq] at hb2
        subst hb2
        refine ⟨by simp, ?_⟩
        intro s hsmem
        rcases List.mem_append.mp hsmem with hold | hnew
        · exact le_of_lt (lt_of_lt_of_le hd (hbound s hold))
        · simp at hnew
          subst hnew
          exact le_refl _
    · simp only [hd, decide_False, Bool.false_eq_true, if_false]
      have hrest :
          ∀ s ∈ st.search ++
            [{ error := stepError (prob.metricError (prob.samplerF prob.imageData
                  (prob.warp st.p)) prob.templateData) prob.shapeProd,
               p := st.p, deltaP := st.deltaP, decreasing := false : OptStep }],
            b.error ≤ s.error := by
        intro s hsmem
        rcases List.mem_append.mp hsmem with hold | hnew
        · exact hbound s hold
        · simp at hnew
          subst hnew
          exact le_of_not_lt hd
      by_cases hbad : st.badSteps + 1 > MAX_BAD
      · rw [if_pos hbad]
        constructor
        · intro hcontra
          simp at hcontra
        · intro b2 hb2
          simp only [Option.some.injEq] at hb2
          subst hb2
          exact ⟨List.mem_append.mpr (Or.inl hmem), hrest⟩
      · rw [if_neg hbad]
        constructor
        · intro hcontra
          rw [tailPhase_bestStep] at hcontra
          simp at hcontra
        · intro b2 hb2
          rw [tailPhase_bestStep] at hb2
          rw [tailPhase_search]
          simp only [Option.some.injEq] at hb2
          subst hb2
          exact ⟨List.mem_append.mpr (Or.inl hmem), hrest⟩

/-- The loop preserves the best-step/trace invariant. -/
theorem regLoop_bestInv {W Img : Type} (prob : RegProblem W Img)
    (v : Bool) : ∀ (fuel i : ℕ) (st : RegState Img),
    BestInv st → BestInv (regLoop prob v fuel i st) := by
  intro fuel
  induction fuel with
  | zero => intro i st h; simpa [regLoop] using h
  | succ n ih =>
    intro i st h
    simp only [regLoop]
    split
    · exact ih (i + 1) _ (stepIter_bestInv prob v i st h)
    · exact stepIter_bestInv prob v i st h

/-- The tail of an iteration behaves identically on two states that differ
only in the verbose log. -/
theorem tailPhase_stripLog {W Img : Type} (prob : RegProblem W Img)
    (s1 s2 : RegState Img) (w : Img) (e : List ℚ)
    (h : stripLog s1 = stripLog s2) :
    stripLog (tailPhase prob s1 w e).1 = stripLog (tailPhase prob s2 w e).1 ∧
    (tailPhase prob s1 w e).2 = (tailPhase prob s2 w e).2 := by
  obtain ⟨p1, al1, c1, d1, a1, s1s, b1, bs1, w1, l1⟩ := s1
  obtain ⟨p2, al2, c2, d2, a2, s2s, b2, bs2, w2, l2⟩ := s2
  simp only [stripLog, RegState.mk.injEq, and_true] at h
  obtain ⟨hp, hal, hc, hd, ha, hs, hb, hbs, hw⟩ := h
  subst hp hal hc hd ha hs hb hbs hw
  simp only [tailPhase]
  split_ifs <;> simp [stripLog]

set_option maxHeartbeats 1000000 in
/-- One iteration behaves identically on two states that differ only in the
verbose log, whatever the two verbose flags are: the side channel does not
feed back into the computation. -/
theorem stepIter_stripLog {W Img : Type} (prob : RegProblem W Img)
    (v1 v2 : Bool) (i : ℕ) (st1 st2 : RegState Img)
    (h : stripLog st1 = stripLog st2) :
    stripLog (stepIter prob v1 i st1).1 = stripLog (stepIter prob v2 i st2).1 ∧
    (stepIter prob v1 i st1).2 = (stepIter prob v2 i st2).2 := by
  obtain ⟨p1, al1, c1, d1, a1, s1s, b1, bs1, w1, l1⟩ := st1
  obtain ⟨p2, al2, c2, d2, a2, s2s, b2, bs2, w2, l2⟩ := st2
  simp only [stripLog, RegState.mk.injEq, and_true] at h
  obtain ⟨hp, hal, hc, hd, ha, hs, hb, hbs, hw⟩ := h
  subst hp hal hc hd ha hs hb hbs hw
  simp only [stepIter]
  split_ifs <;>
    first
      | (simp [stripLog]; done)
      | exact tailPhase_stripLog prob _ _ _ _ (by simp [stripLog])

/-- The whole loop behaves identically on two states that differ only in the
verbose log, whatever the two verbose flags are. -/
theorem regLoop_stripLog {W Img : Type} (prob : RegProblem W Img)
    (v1 v2 : Bool) : ∀ (fuel i : ℕ) (st1 st2 : RegState Img),
    stripLog st1 = stripLog st2 →
    stripLog (regLoop prob v1 fuel i st1) = stripLog (regLoop prob v2 fuel i st2) := by
  intro fuel
  induction fuel with
  | zero => intro i st1 st2 h; simpa [regLoop] using h
  | succ n ih =>
    intro i st1 st2 h
    obtain ⟨hstate, hflag⟩ := stepIter_stripLog prob v1 v2 i st1 st2 h
    simp only [regLoop]
    rw [hflag]
    split
    · exact ih (i + 1) _ _ hstate
    · exact hstate

/-- Element n of the row-major flattening of an a-by-b grid of values f i j
is f (n / b) (n % b). -/
theorem flatten_grid_getD (b : ℕ) :
    ∀ (a : ℕ) (f : ℕ → ℕ → ℚ) (n : ℕ), n < a * b →
    (((List.range a).map (fun i => (List.range b).map (f i))).flatten).getD n 0
      = f (n / b) (n % b) := by
  intro a
  induction a with
  | zero => intro f n hn; omega
  | succ m ih =>
    intro f n hn
    rw [List.range_succ_eq_map, List.map_cons, List.map_map, List.flatten_cons]
    have hb : 0 < b := by
      rcases Nat.eq_zero_or_pos b with h0 | h0
      · subst h0; simp at hn
      · exact h0
    by_cases hnb : n < b
    · rw [List.getD_append _ _ _ _ (by simpa using hnb)]
      simp [List.getD_eq_getElem?_getD, List.getElem?_map, List.getElem?_range hnb,
        Nat.div_eq_of_lt hnb, Nat.mod_eq_of_lt hnb]
    · push_neg at hnb
      rw [List.getD_append_right _ _ _ _ (by simpa using hnb)]
      have h2 : (m + 1) * b = m * b + b := by ring
      have hrec := ih (fun i => f (i + 1)) (n - b) (by omega)
      dsimp only at hrec
      have hlen : ((List.range b).map (f 0)).length = b := by simp
      rw [hlen]
      simp only [Function.comp_def, Nat.succ_eq_add_one]
      rw [hrec, Nat.div_eq_sub_div hb hnb, Nat.mod_eq_sub_mod hnb]

/-- Length of the row-major flattening of an a-by-b grid. -/
theorem flatten_grid_length (b : ℕ) :
    ∀ (a : ℕ) (f : ℕ → ℕ → ℚ),
    (((List.range a).map (fun i => (List.range b).map (f i))).flatten).length = a * b := by
  intro a
  induction a with
  | zero => intro f; simp
  | succ m ih =>
    intro f
    rw [List.range_succ_eq_map, List.map_cons, List.map_map, List.flatten_cons,
      List.length_append]
    have heq : ((List.range m).map ((fun i => (List.range b).map (f i)) ∘ Nat.succ))
        = (List.range m).map (fun i => (List.range b).map (fun j => f (i + 1) j)) := by
      simp [Function.comp_def, Nat.succ_eq_add_one]
    rw [heq, ih (fun i j => f (i + 1) j)]
    simp [Nat.succ_mul, Nat.add_comm]

/-! ### Claim C7: RegisterData shape validation -/

/-- C7 counterexample: a 3-D input array (shape 2 by 2 by 2) does not fail at
all, let alone with an InvalidShapeError, so the claim that constructing a
RegisterData from a non-2-D array fails with an InvalidShapeError is false. -/
theorem registerDataC7_cex :
    [2, 2, 2].length ≠ 2 ∧
    (registerDataInit [2, 2, 2] none).isOk = true ∧
    registerDataInit [2, 2, 2] none ≠ Except.error PyError.invalidShapeError := by
  refine ⟨by decide, by decide, ?_⟩
  intro h
  exact absurd (congrArg Except.isOk h) (by decide)

/-- C7 amended: RegisterData performs no dimensionality validation.
Construction always succeeds when coordinates are supplied; without supplied
coordinates it succeeds exactly when the input has at least two dimensions
(so any array of two or more dimensions is accepted), the failure for arrays
of fewer than two dimensions being the IndexError from reading shape[1] while
deriving the domain; no input produces an InvalidShapeError. -/
theorem registerDataC7_amended (shape : List ℕ) (co : Option CoordsV) :
    (∀ c, co = some c → (registerDataInit shape co).isOk = true) ∧
    (co = none → ((registerDataInit shape none).isOk = true ↔ 2 ≤ shape.length)) ∧
    (co = none → ¬ 2 ≤ shape.length →
      registerDataInit shape none = Except.error PyError.indexError) ∧
    registerDataInit shape co ≠ Except.error PyError.invalidShapeError := by
  refine ⟨?_, ?_, ?_, ?_⟩
  · intro c hc
    subst hc
    rfl
  · intro _
    match shape with
    | [] => simp [registerDataInit, Except.isOk, Except.toBool]
    | [a] => simp [registerDataInit, Except.isOk, Except.toBool]
    | a :: b :: t => simp [registerDataInit, Except.isOk, Except.toBool]
  · intro _ hlen
    match shape with
    | [] => rfl
    | [a] => rfl
    | a :: b :: t => exact absurd (by simp) hlen
  · match co with
    | some c => simp [registerDataInit]
    | none =>
      match shape with
      | [] => simp [registerDataInit]
      | [a] => simp [registerDataInit]
      | a :: b :: t => simp [registerDataInit]

/-- C7 witness: the amended theorem applied to the concrete 1-D shape with
and without supplied coordinates, and to the accepted 3-D shape. -/
theorem registerDataC7_witness :
    (registerDataInit [7] (some (coordinatesInit [0, 1, 0, 1]))).isOk = true ∧
    ((registerDataInit [7] none).isOk = true ↔ 2 ≤ [7].length) ∧
    registerDataInit [7] none = Except.error PyError.indexError ∧
    ((registerDataInit [2, 2, 2] none).isOk = true ↔ 2 ≤ [2, 2, 2].length) :=
  ⟨(registerDataC7_amended [7] (some (coordinatesInit [0, 1, 0, 1]))).1 _ rfl,
   (registerDataC7_amended [7] none).2.1 rfl,
   (registerDataC7_amended [7] none).2.2.1 rfl (by decide),
   (registerDataC7_amended [2, 2, 2] none).2.1 rfl⟩

/-! ### Claim C8: the Coordinates grid -/

/-- Row i, column j of an a-by-b grid of values g i j built over
List.range. -/
theorem range_grid_getD (a b : ℕ) (g : ℕ → ℕ → ℚ) (i j : ℕ) (hi : i < a) (hj : j < b) :
    ((((List.range a).map (fun i2 => (List.range b).map (g i2))).getD i []).getD j 0)
      = g i j := by
  have h1 : ((List.range a).map (fun i2 => (List.range b).map (g i2)))[i]?
      = some ((List.range b).map (g i)) := by
    rw [List.getElem?_map, List.getElem?_range hi]
    rfl
  have h2 : ((List.range b).map (g i))[j]? = some (g i j) := by
    rw [List.getElem?_map, List.getElem?_range hj]
    rfl
  simp [List.getD_eq_getElem?_getD, h1, h2]

/-- Length of row i of an a-by-b grid built over List.range. -/
theorem range_grid_row_len (a b : ℕ) (g : ℕ → ℕ → ℚ) (i : ℕ) (hi : i < a) :
    (((List.range a).map (fun i2 => (List.range b).map (g i2))).getD i []).length = b := by
  have h1 : ((List.range a).map (fun i2 => (List.range b).map (g i2)))[i]?
      = some ((List.range b).map (g i)) := by
    rw [List.getElem?_map, List.getElem?_range hi]
    rfl
  simp [List.getD_eq_getElem?_getD, h1]

/-- C8 counterexample: for the well-formed domain [1, 2, 0, 1] (r1 = 2 > 1 =
r0 and c1 = 1 > 0 = c0) the constructed grid does not cover rows [r0, r1): the
code ignores the row start and produces the two rows 0 and 1 instead of the
single row 1 the claim requires. -/
theorem coordinatesC8_cex :
    (1 : ℤ) < 2 ∧ (0 : ℤ) < 1 ∧
    (coordinatesInit [1, 2, 0, 1]).tensor0 ≠ specClaimTensor0 1 2 0 1 ∧
    (coordinatesInit [1, 2, 0, 1]).tensor0 = [[0], [1]] := by
  refine ⟨by norm_num, by norm_num, ?_, ?_⟩
  · with_unfolding_all decide
  · with_unfolding_all decide

/-- C8 amended: for every domain [r0, r1, c0, c1] the construction ignores
the start bounds r0 and c0 and produces the pixel-index grid covering rows
[0, r1) and columns [0, c1): tensor0 holds the row index and tensor1 the
column index of each cell, and homogenous is the 3-by-N array (N = r1 * c1)
whose column n is (x, y, 1) with x = n mod c1 the column index and
y = n / c1 the row index, i.e. flattened in row-major pixel order.  The claim
as stated holds only for domains with r0 = 0 and c0 = 0. -/
theorem coordinatesC8_amended (r0 c0 : ℤ) (r1 c1 : ℕ) (cv : CoordsV)
    (hcv : cv = coordinatesInit [r0, (r1 : ℤ), c0, (c1 : ℤ)]) :
    cv.tensor0.length = r1 ∧ cv.tensor1.length = r1 ∧
    (∀ i, i < r1 →
      (cv.tensor0.getD i []).length = c1 ∧ (cv.tensor1.getD i []).length = c1) ∧
    (∀ i j, i < r1 → j < c1 →
      (cv.tensor0.getD i []).getD j 0 = (i : ℚ) ∧
      (cv.tensor1.getD i []).getD j 0 = (j : ℚ)) ∧
    cv.homogenous.length = 3 ∧
    (cv.homogenous.getD 0 []).length = r1 * c1 ∧
    (cv.homogenous.getD 1 []).length = r1 * c1 ∧
    (cv.homogenous.getD 2 []).length = r1 * c1 ∧
    (∀ n, n < r1 * c1 →
      (cv.homogenous.getD 0 []).getD n 0 = ((n % c1 : ℕ) : ℚ) ∧
      (cv.homogenous.getD 1 []).getD n 0 = ((n / c1 : ℕ) : ℚ) ∧
      (cv.homogenous.getD 2 []).getD n 0 = 1) := by
  subst hcv
  have ht0 : (coordinatesInit [r0, (r1 : ℤ), c0, (c1 : ℤ)]).tensor0
      = (List.range r1).map (fun (i : ℕ) => (List.range c1).map (fun _ => (i : ℚ))) := by
    simp [coordinatesInit]
  have ht1 : (coordinatesInit [r0, (r1 : ℤ), c0, (c1 : ℤ)]).tensor1
      = (List.range r1).map (fun _ => (List.range c1).map (fun (j : ℕ) => (j : ℚ))) := by
    simp [coordinatesInit]
  have hhom : (coordinatesInit [r0, (r1 : ℤ), c0, (c1 : ℤ)]).homogenous
      = [((List.range r1).map (fun _ => (List.range c1).map (fun (j : ℕ) => (j : ℚ)))).flatten,
         ((List.range r1).map (fun (i : ℕ) => (List.range c1).map (fun _ => (i : ℚ)))).flatten,
         List.replicate (r1 * c1) (1 : ℚ)] := by
    simp [coordinatesInit]
  refine ⟨?_, ?_, ?_, ?_, ?_, ?_, ?_, ?_, ?_⟩
  · rw [ht0]; simp
  · rw [ht1]; simp
  · intro i hi
    rw [ht0, ht1]
    exact ⟨range_grid_row_len r1 c1 (fun i2 _ => (i2 : ℚ)) i hi,
           range_grid_row_len r1 c1 (fun _ j2 => (j2 : ℚ)) i hi⟩
  · intro i j hi hj
    rw [ht0, ht1]
    exact ⟨range_grid_getD r1 c1 (fun i2 _ => (i2 : ℚ)) i j hi hj,
           range_grid_getD r1 c1 (fun _ j2 => (j2 : ℚ)) i j hi hj⟩
  · rw [hhom]; simp
  · rw [hhom]
    simpa using flatten_grid_length c1 r1 (fun _ j => (j : ℚ))
  · rw [hhom]
    simpa using flatten_grid_length c1 r1 (fun i _ => (i : ℚ))
  · rw [hhom]; simp
  · intro n hn
    rw [hhom]
    refine ⟨?_, ?_, ?_⟩
    · simpa using flatten_grid_getD c1 r1 (fun _ j => (j : ℚ)) n hn
    · simpa using flatten_grid_getD c1 r1 (fun i _ => (i : ℚ)) n hn
    · simp [List.getD_eq_getElem?_getD, List.getElem?_replicate, hn]

/-- C8 witness: the amended theorem applied to the concrete domain
[1, 3, 5, 2], whose start bounds 1 and 5 are ignored: the constructed grid is
the zero-origin 3-by-2 one, and column 3 of the homogeneous array is the
claimed row-major (x, y, 1) triple (1, 1, 1). -/
theorem coordinatesC8_witness :
    (coordinatesInit [1, 3, 5, 2]).tensor0.length = 3 ∧
    ((coordinatesInit [1, 3, 5, 2]).homogenous.getD 0 []).getD 3 0 = ((3 % 2 : ℕ) : ℚ) ∧
    ((coordinatesInit [1, 3, 5, 2]).homogenous.getD 1 []).getD 3 0 = ((3 / 2 : ℕ) : ℚ) ∧
    ((coordinatesInit [1, 3, 5, 2]).homogenous.getD 2 []).getD 3 0 = 1 :=
  ⟨(coordinatesC8_amended 1 5 3 2 _ rfl).1,
   ((coordinatesC8_amended 1 5 3 2 _ rfl).2.2.2.2.2.2.2.2 3 (by norm_num)).1,
   ((coordinatesC8_amended 1 5 3 2 _ rfl).2.2.2.2.2.2.2.2 3 (by norm_num)).2.1,
   ((coordinatesC8_amended 1 5 3 2 _ rfl).2.2.2.2.2.2.2.2 3 (by norm_num)).2.2⟩

/-! ### Claims C1-C6, C9, C10: the Register engine -/

/-- The deltaP stored by the tail of an iteration is the damped Gauss-Newton
update computed from the Jacobian at the state's (possibly reverted)
parameters. -/
theorem tailPhase_deltaP {W Img : Type} (prob : RegProblem W Img)
    (s : RegState Img) (w : Img) (e : List ℚ) :
    (tailPhase prob s w e).1.deltaP = deltaPcalc (prob.jacobian w s.p) e s.alpha := by
  simp only [tailPhase]; split_ifs <;> simp

/-- The tail of an iteration either leaves p unchanged (convergence break) or
increments it by the computed deltaP. -/
theorem tailPhase_p {W Img : Type} (prob : RegProblem W Img)
    (s : RegState Img) (w : Img) (e : List ℚ) :
    (tailPhase prob s w e).1.p = s.p ∨
    (tailPhase prob s w e).1.p = vecAdd s.p ((tailPhase prob s w e).1.deltaP) := by
  simp only [tailPhase]; split_ifs <;> simp

/-- C1: in every iteration after the first whose step record is not
decreasing (its error is not below the best step's error), the bad-step
counter is incremented; if the counter then exceeds MAX_BAD = 5 the loop
terminates immediately, returning the best step found so far, the last
computed resampled image and the full trace including the failed step;
otherwise the live parameter vector is reverted to the best step's parameters
before the Jacobian is computed, so metric.jacobian receives the reverted
parameters and the new deltaP is computed from them (p then stays at the
reverted value or is incremented from it). -/
theorem registerC1 {W Img : Type} (prob : RegProblem W Img) (verbose : Bool)
    (iter : ℕ) (st : RegState Img) (b : OptStep)
    (hne : st.search ≠ []) (hb : st.bestStep = some b)
    (hbad : ¬ iterError prob st < b.error) :
    MAX_BAD = 5 ∧
    (stepIter prob verbose iter st).1.badSteps = st.badSteps + 1 ∧
    (st.badSteps + 1 > MAX_BAD →
      (stepIter prob verbose iter st).2 = false ∧
      (stepIter prob verbose iter st).1.bestStep = some b ∧
      (stepIter prob verbose iter st).1.search
        = st.search ++ [{ error := iterError prob st, p := st.p, deltaP := st.deltaP,
                          decreasing := false }] ∧
      (stepIter prob verbose iter st).1.warpedImage = some (iterWarped prob st) ∧
      (∀ fuel, regLoop prob verbose (fuel + 1) iter st = (stepIter prob verbose iter st).1)) ∧
    (st.badSteps + 1 ≤ MAX_BAD →
      (stepIter prob verbose iter st).1.deltaP
        = deltaPcalc (prob.jacobian (iterWarped prob st) b.p) (iterResidual prob st)
            (dampening st.alpha false) ∧
      ((stepIter prob verbose iter st).1.p = b.p ∨
       (stepIter prob verbose iter st).1.p
         = vecAdd b.p ((stepIter prob verbose iter st).1.deltaP))) := by
  have hE : st.search.isEmpty = false := by
    cases hs : st.search with
    | nil => exact absurd hs hne
    | cons a t => rfl
  have hbad2 : ¬ stepError (prob.metricError (prob.samplerF prob.imageData (prob.warp st.p))
      prob.templateData) prob.shapeProd < b.error := hbad
  have hdec : decide (stepError (prob.metricError (prob.samplerF prob.imageData
      (prob.warp st.p)) prob.templateData) prob.shapeProd < b.error) = false := by
    rw [decide_eq_false_iff_not]; exact hbad2
  refine ⟨rfl, ?_, ?_, ?_⟩
  · simp only [stepIter, hE, Bool.false_eq_true, if_false, hb, Option.getD_some, hdec]
    by_cases hgt : st.badSteps + 1 > MAX_BAD
    · rw [if_pos hgt]
    · rw [if_neg hgt, tailPhase_badSteps]
  · intro hgt
    have hflag : (stepIter prob verbose iter st).2 = false := by
      simp only [stepIter, hE, Bool.false_eq_true, if_false, hb, Option.getD_some, hdec]
      rw [if_pos hgt]
    refine ⟨hflag, ?_, ?_, ?_, ?_⟩
    · simp only [stepIter, hE, Bool.false_eq_true, if_false, hb, Option.getD_some, hdec]
      rw [if_pos hgt]
    · simp only [stepIter, hE, Bool.false_eq_true, if_false, hb, Option.getD_some, hdec,
        iterError, iterResidual, iterWarped]
      rw [if_pos hgt]
    · simp only [stepIter, hE, Bool.false_eq_true, if_false, hb, Option.getD_some, hdec,
        iterWarped]
      rw [if_pos hgt]
    · intro fuel
      simp only [regLoop, hflag, Bool.false_eq_true, if_false]
  · intro hle
    have hgt : ¬ st.badSteps + 1 > MAX_BAD := by omega
    constructor
    · simp only [stepIter, hE, Bool.false_eq_true, if_false, hb, Option.getD_some, hdec,
        iterError, iterResidual, iterWarped]
      rw [if_neg hgt, tailPhase_deltaP]
    · simp only [stepIter, hE, Bool.false_eq_true, if_false, hb, Option.getD_some, hdec]
      rw [if_neg hgt]
      simpa using tailPhase_p prob _ (prob.samplerF prob.imageData (prob.warp st.p))
        (prob.metricError (prob.samplerF prob.imageData (prob.warp st.p)) prob.templateData)

/-- C2: the bad-step counter starts at 0, never decreases across an
iteration or across the rest of the loop, is left unchanged by the first
iteration and by every improving (decreasing) step, and is incremented by
exactly one on every non-improving step after the first iteration. -/
theorem registerC2 {W Img : Type} (prob : RegProblem W Img) (verbose : Bool)
    (iter : ℕ) (st : RegState Img) (p0 : Option (List ℚ)) (alpha0 : Option ℚ)
    (b : OptStep) :
    (mkInitState prob p0 alpha0).badSteps = 0 ∧
    st.badSteps ≤ (stepIter prob verbose iter st).1.badSteps ∧
    (st.search = [] → (stepIter prob verbose iter st).1.badSteps = st.badSteps) ∧
    (st.search ≠ [] → st.bestStep = some b → iterError prob st < b.error →
      (stepIter prob verbose iter st).1.badSteps = st.badSteps) ∧
    (st.search ≠ [] → st.bestStep = some b → ¬ iterError prob st < b.error →
      (stepIter prob verbose iter st).1.badSteps = st.badSteps + 1) ∧
    (∀ fuel, st.badSteps ≤ (regLoop prob verbose fuel iter st).badSteps) := by
  refine ⟨rfl, stepIter_badSteps_mono prob verbose iter st, ?_, ?_, ?_,
    fun fuel => regLoop_badSteps_mono prob verbose fuel iter st⟩
  · intro hs
    have hE : st.search.isEmpty = true := by rw [hs]; rfl
    simp only [stepIter, hE, eq_self_iff_true, if_true]
    rw [tailPhase_badSteps]
  · intro hne hb hd
    have hE : st.search.isEmpty = false := by
      cases hs : st.search with
      | nil => exact absurd hs hne
      | cons a t => rfl
    have hdec : decide (stepError (prob.metricError (prob.samplerF prob.imageData
        (prob.warp st.p)) prob.templateData) prob.shapeProd < b.error) = true :=
      decide_eq_true hd
    simp only [stepIter, hE, Bool.false_eq_true, if_false, hb, Option.getD_some, hdec,
      eq_self_iff_true, if_true]
    rw [tailPhase_badSteps]
  · intro hne hb hd
    have hE : st.search.isEmpty = false := by
      cases hs : st.search with
      | nil => exact absurd hs hne
      | cons a t => rfl
    have hdec : decide (stepError (prob.metricError (prob.samplerF prob.imageData
        (prob.warp st.p)) prob.templateData) prob.shapeProd < b.error) = false := by
      rw [decide_eq_false_iff_not]; exact hd
    simp only [stepIter, hE, Bool.false_eq_true, if_false, hb, Option.getD_some, hdec]
    by_cases hgt : st.badSteps + 1 > MAX_BAD
    · rw [if_pos hgt]
    · rw [if_neg hgt, tailPhase_badSteps]

/-- C3: the best step is replaced only by a step of strictly lower error (so
the best error is non-increasing across the iterations), and the returned
best step is a member of the returned trace whose error is minimal in it. -/
theorem registerC3 {W Img : Type} (prob : RegProblem W Img) (p0 : Option (List ℚ))
    (alpha0 : Option ℚ) (verbose v2 : Bool) (i2 : ℕ) (st : RegState Img)
    (b : OptStep) :
    (st.bestStep = some b →
      ∃ b2, (stepIter prob v2 i2 st).1.bestStep = some b2 ∧ b2.error ≤ b.error ∧
        (b2 = b ∨ b2.error < b.error)) ∧
    (∀ bs, (register prob p0 alpha0 verbose).bestStep = some bs →
      bs ∈ (register prob p0 alpha0 verbose).search ∧
      ∀ s ∈ (register prob p0 alpha0 verbose).search, bs.error ≤ s.error) := by
  constructor
  · intro hb
    by_cases hE : st.search.isEmpty
    · refine ⟨b, ?_, le_refl _, Or.inl rfl⟩
      simp only [stepIter, hE, eq_self_iff_true, if_true, hb, Option.getD_some]
      rw [tailPhase_bestStep]
    · have hE2 : st.search.isEmpty = false := by
        cases h : st.search.isEmpty with
        | false => rfl
        | true => exact absurd h hE
      by_cases hd : stepError (prob.metricError (prob.samplerF prob.imageData
          (prob.warp st.p)) prob.templateData) prob.shapeProd < b.error
      · refine ⟨⟨stepError (prob.metricError (prob.samplerF prob.imageData
            (prob.warp st.p)) prob.templateData) prob.shapeProd,
            st.p, st.deltaP, true⟩, ?_, le_of_lt hd, Or.inr hd⟩
        have hdec : decide (stepError (prob.metricError (prob.samplerF prob.imageData
            (prob.warp st.p)) prob.templateData) prob.shapeProd < b.error) = true :=
          decide_eq_true hd
        simp only [stepIter, hE2, Bool.false_eq_true, if_false, hb, Option.getD_some,
          hdec, eq_self_iff_true, if_true]
        rw [tailPhase_bestStep]
      · have hdec : decide (stepError (prob.metricError (prob.samplerF prob.imageData
            (prob.warp st.p)) prob.templateData) prob.shapeProd < b.error) = false := by
          rw [decide_eq_false_iff_not]; exact hd
        refine ⟨b, ?_, le_refl _, Or.inl rfl⟩
        simp only [stepIter, hE2, Bool.false_eq_true, if_false, hb, Option.getD_some, hdec]
        by_cases hgt : st.badSteps + 1 > MAX_BAD
        · rw [if_pos hgt]
        · rw [if_neg hgt, tailPhase_bestStep]
  · intro bs hbs
    have hinit : BestInv (mkInitState prob p0 alpha0) := by
      constructor
      · intro _; rfl
      · intro b2 hb2; exact absurd hb2 (by simp [mkInitState])
    have hinv := regLoop_bestInv prob verbose MAX_ITER 0 (mkInitState prob p0 alpha0) hinit
    simp only [register] at hbs ⊢
    exact hinv.2 bs hbs

/-- C4: the damping factor is left unchanged by the first iteration, and on
every later iteration it becomes exactly alpha / 10 when that iteration's
appended step record is decreasing and exactly alpha * 10 otherwise. -/
theorem registerC4 {W Img : Type} (prob : RegProblem W Img) (verbose : Bool)
    (iter : ℕ) (st : RegState Img) (b : OptStep) :
    (st.search = [] → (stepIter prob verbose iter st).1.alpha = st.alpha) ∧
    (st.search ≠ [] → st.bestStep = some b →
      (stepIter prob verbose iter st).1.search
        = st.search ++ [{ error := iterError prob st, p := st.p, deltaP := st.deltaP,
                          decreasing := decide (iterError prob st < b.error) }] ∧
      (stepIter prob verbose iter st).1.alpha
        = if iterError prob st < b.error then st.alpha / 10 else st.alpha * 10) := by
  constructor
  · intro hs
    have hE : st.search.isEmpty = true := by rw [hs]; rfl
    simp only [stepIter, hE, eq_self_iff_true, if_true]
    rw [tailPhase_alpha]
  · intro hne hb
    have hE : st.search.isEmpty = false := by
      cases hs : st.search with
      | nil => exact absurd hs hne
      | cons a t => rfl
    by_cases hd : stepError (prob.metricError (prob.samplerF prob.imageData
        (prob.warp st.p)) prob.templateData) prob.shapeProd < b.error
    · have hdec : decide (stepError (prob.metricError (prob.samplerF prob.imageData
          (prob.warp st.p)) prob.templateData) prob.shapeProd < b.error) = true :=
        decide_eq_true hd
      constructor
      · simp only [stepIter, hE, Bool.false_eq_true, if_false, hb, Option.getD_some,
          hdec, eq_self_iff_true, if_true, iterError, iterResidual, iterWarped]
        rw [tailPhase_search]
      · simp only [stepIter, hE, Bool.false_eq_true, if_false, hb, Option.getD_some,
          hdec, eq_self_iff_true, if_true, iterError, iterResidual, iterWarped]
        rw [tailPhase_alpha, if_pos hd]
        simp [dampening]
    · have hdec : decide (stepError (prob.metricError (prob.samplerF prob.imageData
          (prob.warp st.p)) prob.templateData) prob.shapeProd < b.error) = false := by
        rw [decide_eq_false_iff_not]; exact hd
      constructor
      · simp only [stepIter, hE, Bool.false_eq_true, if_false, hb, Option.getD_some,
          hdec, iterError, iterResidual, iterWarped]
        by_cases hgt : st.badSteps + 1 > MAX_BAD
        · rw [if_pos hgt]
        · rw [if_neg hgt, tailPhase_search]
      · simp only [stepIter, hE, Bool.false_eq_true, if_false, hb, Option.getD_some,
          hdec, iterError, iterResidual, iterWarped]
        rw [if_neg hd]
        by_cases hgt : st.badSteps + 1 > MAX_BAD
        · rw [if_pos hgt]
          simp [dampening]
        · rw [if_neg hgt, tailPhase_alpha]
          simp [dampening]

/-- C5: in every iteration, once deltaP has been computed (the tail of the
iteration), the stored deltaP is the damped Gauss-Newton update; if its dot
product with itself is below 1e-4 the iteration reports a break without
touching p, the caller's array, the trace or the best step, and the loop then
stops immediately; otherwise the iteration continues and p is incremented by
exactly the computed deltaP (every continuing iteration ends this way, with a
deltaP that failed the threshold test). -/
theorem registerC5 {W Img : Type} (prob : RegProblem W Img)
    (st st2 : RegState Img) (warped : Img) (e : List ℚ) (v : Bool) (i fuel : ℕ) :
    (tailPhase prob st warped e).1.deltaP
      = deltaPcalc (prob.jacobian warped st.p) e st.alpha ∧
    (npdot (deltaPcalc (prob.jacobian warped st.p) e st.alpha)
        (deltaPcalc (prob.jacobian warped st.p) e st.alpha) < 1 / 10000 →
      (tailPhase prob st warped e).2 = false ∧
      (tailPhase prob st warped e).1.p = st.p ∧
      (tailPhase prob st warped e).1.caller = st.caller ∧
      (tailPhase prob st warped e).1.search = st.search ∧
      (tailPhase prob st warped e).1.bestStep = st.bestStep) ∧
    (¬ npdot (deltaPcalc (prob.jacobian warped st.p) e st.alpha)
        (deltaPcalc (prob.jacobian warped st.p) e st.alpha) < 1 / 10000 →
      (tailPhase prob st warped e).2 = true ∧
      (tailPhase prob st warped e).1.p
        = vecAdd st.p (deltaPcalc (prob.jacobian warped st.p) e st.alpha)) ∧
    ((stepIter prob v i st2).2 = false →
      regLoop prob v (fuel + 1) i st2 = (stepIter prob v i st2).1) ∧
    ((stepIter prob v i st2).2 = true →
      ∃ q, (stepIter prob v i st2).1.p = vecAdd q ((stepIter prob v i st2).1.deltaP) ∧
        ¬ npdot ((stepIter prob v i st2).1.deltaP) ((stepIter prob v i st2).1.deltaP)
          < 1 / 10000) := by
  refine ⟨tailPhase_deltaP prob st warped e, ?_, ?_, ?_, ?_⟩
  · intro hlt
    simp only [tailPhase]
    rw [if_pos hlt]
    simp
  · intro hlt
    simp only [tailPhase]
    rw [if_neg hlt]
    simp
  · intro hflag
    simp only [regLoop, hflag, Bool.false_eq_true, if_false]
  · intro hflag
    have key : ∀ (s3 : RegState Img) (w3 : Img) (e3 : List ℚ),
        (tailPhase prob s3 w3 e3).2 = true →
        (tailPhase prob s3 w3 e3).1.p
            = vecAdd s3.p ((tailPhase prob s3 w3 e3).1.deltaP) ∧
        ¬ npdot ((tailPhase prob s3 w3 e3).1.deltaP)
            ((tailPhase prob s3 w3 e3).1.deltaP) < 1 / 10000 := by
      intro s3 w3 e3 hc
      simp only [tailPhase] at hc ⊢
      by_cases hlt : npdot (deltaPcalc (prob.jacobian w3 s3.p) e3 s3.alpha)
          (deltaPcalc (prob.jacobian w3 s3.p) e3 s3.alpha) < 1 / 10000
      · rw [if_pos hlt] at hc
        exact absurd hc (by simp)
      · rw [if_neg hlt] at hc ⊢
        exact ⟨by simp, by simpa using hlt⟩
    simp only [stepIter] at hflag ⊢
    split_ifs at hflag ⊢ <;> exact ⟨_, key _ _ _ hflag⟩

/-- C6: every run executes at most MAX_ITER = 200 iterations, so the
returned trace holds at most 200 step records, and the function always
returns a tuple whose best step and resampled image are present (the model is
total: no exception is raised for non-convergence, whichever way the loop
ends). -/
theorem registerC6 {W Img : Type} (prob : RegProblem W Img) (p0 : Option (List ℚ))
    (alpha0 : Option ℚ) (verbose : Bool) :
    MAX_ITER = 200 ∧
    (register prob p0 alpha0 verbose).search.length ≤ MAX_ITER ∧
    (register prob p0 alpha0 verbose).bestStep.isSome = true ∧
    (register prob p0 alpha0 verbose).warpedImage.isSome = true := by
  refine ⟨rfl, ?_, ?_, ?_⟩
  · simpa [register, mkInitState] using
      regLoop_search_len prob verbose MAX_ITER 0 (mkInitState prob p0 alpha0)
  · simp only [register]
    exact (regLoop_isSome_of_pos prob verbose 199 0 (mkInitState prob p0 alpha0)).1
  · simp only [register]
    exact (regLoop_isSome_of_pos prob verbose 199 0 (mkInitState prob p0 alpha0)).2

/-- States equal after removing the log agree on every other field. -/
theorem stripLog_proj {Img : Type} (s1 s2 : RegState Img)
    (h : stripLog s1 = stripLog s2) :
    s1.bestStep = s2.bestStep ∧ s1.warpedImage = s2.warpedImage ∧
    s1.search = s2.search ∧ s1.caller = s2.caller ∧ s1.p = s2.p := by
  obtain ⟨p1, al1, c1, d1, a1, s1s, b1, bs1, w1, l1⟩ := s1
  obtain ⟨p2, al2, c2, d2, a2, s2s, b2, bs2, w2, l2⟩ := s2
  simp only [stripLog, RegState.mk.injEq, and_true] at h
  obtain ⟨hp, hal, hc, hd, ha, hs, hb, hbs, hw⟩ := h
  subst hp hal hc hd ha hs hb hbs hw
  exact ⟨rfl, rfl, rfl, rfl, rfl⟩

/-- C9: the verbose flag only feeds the progress side channel; two calls
that differ only in it return the same best step, resampled image, trace,
final caller-array contents and final live parameters. -/
theorem registerC9 {W Img : Type} (prob : RegProblem W Img) (p0 : Option (List ℚ))
    (alpha0 : Option ℚ) :
    (register prob p0 alpha0 true).bestStep = (register prob p0 alpha0 false).bestStep ∧
    (register prob p0 alpha0 true).warpedImage
      = (register prob p0 alpha0 false).warpedImage ∧
    (register prob p0 alpha0 true).search = (register prob p0 alpha0 false).search ∧
    (register prob p0 alpha0 true).callerArray
      = (register prob p0 alpha0 false).callerArray ∧
    (register prob p0 alpha0 true).finalP = (register prob p0 alpha0 false).finalP := by
  have h := regLoop_stripLog prob true false MAX_ITER 0
    (mkInitState prob p0 alpha0) (mkInitState prob p0 alpha0) rfl
  have hp := stripLog_proj _ _ h
  simp only [register]
  exact ⟨hp.1, hp.2.1, hp.2.2.1, hp.2.2.2.1, hp.2.2.2.2⟩

/-- The tail of an iteration leaves the caller's array untouched when the
live p no longer aliases it. -/
theorem tailPhase_caller_detached {W Img : Type} (prob : RegProblem W Img)
    (s : RegState Img) (w : Img) (e : List ℚ) (h : s.pAliased = false) :
    (tailPhase prob s w e).1.caller = s.caller := by
  simp only [tailPhase]
  split_ifs with h1 h2
  · rfl
  · exact absurd h2 (by simp [h])
  · rfl

/-- When the tail of an iteration continues and the live p aliases the
caller's array, the update writes p + deltaP into the caller's array. -/
theorem tailPhase_cont_caller {W Img : Type} (prob : RegProblem W Img)
    (s : RegState Img) (w : Img) (e : List ℚ)
    (hc : (tailPhase prob s w e).2 = true) (ha : s.pAliased = true) :
    (tailPhase prob s w e).1.caller = vecAdd s.p ((tailPhase prob s w e).1.deltaP) := by
  simp only [tailPhase] at hc ⊢
  split_ifs at hc ⊢
  rfl

/-- C10 amended: the caller-supplied parameter array is written in place by
the update p += deltaP only while the live p still aliases it.  A
caller-supplied p starts out aliased; a non-improving non-breaking step
(the revert p = bestStep.p.copy()) ends the aliasing; once the aliasing has
ended no iteration changes the caller's array any more; and an iteration that
applies its update while the aliasing still holds (and does not revert)
leaves p + deltaP in the caller's array. -/
theorem registerC10_amended {W Img : Type} (prob : RegProblem W Img) (v : Bool)
    (i : ℕ) (st : RegState Img) (b : OptStep) (p1 : List ℚ) (a0 : Option ℚ) :
    ((mkInitState prob (some p1) a0).pAliased = true ∧
     (mkInitState prob (some p1) a0).caller = p1) ∧
    (st.pAliased = false →
      (stepIter prob v i st).1.caller = st.caller ∧
      (stepIter prob v i st).1.pAliased = false) ∧
    (st.search ≠ [] → st.bestStep = some b → ¬ iterError prob st < b.error →
      st.badSteps + 1 ≤ MAX_BAD →
      (stepIter prob v i st).1.pAliased = false) ∧
    (st.pAliased = true → (stepIter prob v i st).1.pAliased = true →
      (stepIter prob v i st).2 = true →
      (stepIter prob v i st).1.caller = vecAdd st.p ((stepIter prob v i st).1.deltaP)) := by
  refine ⟨⟨rfl, rfl⟩, ?_, ?_, ?_⟩
  · intro hal
    simp only [stepIter]
    split_ifs <;>
      refine ⟨?_, ?_⟩ <;>
      first
        | (simp [hal]; done)
        | (rw [tailPhase_caller_detached prob _ _ _ (by simp [hal])]; done)
        | (rw [tailPhase_caller_detached prob _ _ _ (by simp [hal])]; simp [hal]; done)
        | (rw [tailPhase_pAliased]; simp [hal]; done)
  · intro hne hb hbad hle
    have hE : st.search.isEmpty = false := by
      cases hs : st.search with
      | nil => exact absurd hs hne
      | cons a t => rfl
    have hdec : decide (stepError (prob.metricError (prob.samplerF prob.imageData
        (prob.warp st.p)) prob.templateData) prob.shapeProd < b.error) = false := by
      rw [decide_eq_false_iff_not]; exact hbad
    have hgt : ¬ st.badSteps + 1 > MAX_BAD := by omega
    simp only [stepIter, hE, Bool.false_eq_true, if_false, hb, Option.getD_some, hdec]
    rw [if_neg hgt, tailPhase_pAliased]
  · intro hal hal2 hcont
    by_cases hE : st.search.isEmpty
    · simp only [stepIter, hE, eq_self_iff_true, if_true] at hal2 hcont ⊢
      exact tailPhase_cont_caller prob _ _ _ hcont hal
    · have hE2 : st.search.isEmpty = false := by
        cases h : st.search.isEmpty with
        | false => rfl
        | true => exact absurd h hE
      by_cases hd : stepError (prob.metricError (prob.samplerF prob.imageData
          (prob.warp st.p)) prob.templateData) prob.shapeProd
          < (st.bestStep.getD
              { error := stepError (prob.metricError (prob.samplerF prob.imageData
                  (prob.warp st.p)) prob.templateData) prob.shapeProd,
                p := st.p, deltaP := st.deltaP, decreasing := true }).error
      · have hdec := decide_eq_true hd
        simp only [stepIter, hE2, Bool.false_eq_true, if_false, hdec,
          eq_self_iff_true, if_true] at hal2 hcont ⊢
        exact tailPhase_cont_caller prob _ _ _ hcont hal
      · have hdec : decide (stepError (prob.metricError (prob.samplerF prob.imageData
            (prob.warp st.p)) prob.templateData) prob.shapeProd
            < (st.bestStep.getD
                { error := stepError (prob.metricError (prob.samplerF prob.imageData
                    (prob.warp st.p)) prob.templateData) prob.shapeProd,
                  p := st.p, deltaP := st.deltaP, decreasing := true }).error) = false := by
          rw [decide_eq_false_iff_not]; exact hd
        by_cases hgt : st.badSteps + 1 > MAX_BAD
        · simp only [stepIter, hE2, Bool.false_eq_true, if_false, hdec] at hcont
          rw [if_pos hgt] at hcont
          exact absurd hcont (by simp)
        · simp only [stepIter, hE2, Bool.false_eq_true, if_false, hdec] at hal2
          rw [if_neg hgt, tailPhase_pAliased] at hal2
          simp at hal2

/-- C10 counterexample: in the constant-error run with caller-supplied
parameters [1] and caller-supplied damping 0, six iterations apply a nonzero
update (records 2-7 of the returned trace store the applied deltaP values of
iterations 1-6), yet the caller's array ends at [2]: it received only the
first update.  Had it been mutated in place during every update-applying
iteration, it would have ended at [7] = [1] plus the sum of all applied
updates. -/
theorem registerC10_cex :
    (register cProb (some [1]) (some 0) false).search.length = 7 ∧
    ((register cProb (some [1]) (some 0) false).search.drop 1).map OptStep.deltaP
      = [[1], [1], [1], [1], [1], [1]] ∧
    (register cProb (some [1]) (some 0) false).callerArray = [2] ∧
    List.foldl vecAdd [1]
      (((register cProb (some [1]) (some 0) false).search.drop 1).map OptStep.deltaP)
      = [7] ∧
    (register cProb (some [1]) (some 0) false).callerArray
      ≠ List.foldl vecAdd [1]
          (((register cProb (some [1]) (some 0) false).search.drop 1).map
            OptStep.deltaP) := by
  with_unfolding_all decide

/-- C1 witness: the theorem applied to the concrete non-improving second
iteration of the constant-error run. -/
theorem registerC1_witness :
    (cSt1.search ≠ [] ∧ cSt1.bestStep = some cBest ∧
      ¬ iterError cProb cSt1 < cBest.error) ∧
    (stepIter cProb false 1 cSt1).1.badSteps = cSt1.badSteps + 1 :=
  ⟨⟨by with_unfolding_all decide, by with_unfolding_all decide,
    by with_unfolding_all decide⟩,
   (registerC1 cProb false 1 cSt1 cBest (by with_unfolding_all decide)
      (by with_unfolding_all decide) (by with_unfolding_all decide)).2.1⟩

/-- C2 witness: the theorem applied to the concrete first iteration (counter
unchanged) and to the concrete non-improving second iteration (counter
incremented). -/
theorem registerC2_witness :
    (cSt0.search = [] ∧ (stepIter cProb false 0 cSt0).1.badSteps = cSt0.badSteps) ∧
    (cSt1.search ≠ [] ∧ cSt1.bestStep = some cBest ∧
      ¬ iterError cProb cSt1 < cBest.error ∧
      (stepIter cProb false 1 cSt1).1.badSteps = cSt1.badSteps + 1) :=
  ⟨⟨rfl, (registerC2 cProb false 0 cSt0 none none cBest).2.2.1 rfl⟩,
   ⟨by with_unfolding_all decide, by with_unfolding_all decide,
    by with_unfolding_all decide,
    (registerC2 cProb false 1 cSt1 none none cBest).2.2.2.2.1
      (by with_unfolding_all decide) (by with_unfolding_all decide)
      (by with_unfolding_all decide)⟩⟩

/-- C3 witness: the theorem applied to the concrete second iteration and to
the full constant-error run, whose returned best step is the first record and
is minimal in the returned trace. -/
theorem registerC3_witness :
    (cSt1.bestStep = some cBest ∧
      ∃ b2, (stepIter cProb false 1 cSt1).1.bestStep = some b2 ∧
        b2.error ≤ cBest.error ∧ (b2 = cBest ∨ b2.error < cBest.error)) ∧
    ((register cProb (some [1]) (some 0) false).bestStep = some cBest ∧
      cBest ∈ (register cProb (some [1]) (some 0) false).search ∧
      ∀ s ∈ (register cProb (some [1]) (some 0) false).search, cBest.error ≤ s.error) :=
  ⟨⟨by with_unfolding_all decide,
    (registerC3 cProb (some [1]) (some 0) false false 1 cSt1 cBest).1
      (by with_unfolding_all decide)⟩,
   ⟨by with_unfolding_all decide,
    ((registerC3 cProb (some [1]) (some 0) false false 1 cSt1 cBest).2 cBest
      (by with_unfolding_all decide)).1,
    ((registerC3 cProb (some [1]) (some 0) false false 1 cSt1 cBest).2 cBest
      (by with_unfolding_all decide)).2⟩⟩

/-- C4 witness: the theorem applied to the concrete first iteration (damping
unchanged) and to a concrete non-improving later iteration with damping 1
(damping becomes 10). -/
theorem registerC4_witness :
    (cSt0.search = [] ∧ (stepIter cProb false 0 cSt0).1.alpha = cSt0.alpha) ∧
    (aSt.search ≠ [] ∧ aSt.bestStep = some cBest ∧
      (stepIter cProb false 1 aSt).1.alpha
        = if iterError cProb aSt < cBest.error then aSt.alpha / 10 else aSt.alpha * 10) :=
  ⟨⟨rfl, (registerC4 cProb false 0 cSt0 cBest).1 rfl⟩,
   ⟨by with_unfolding_all decide, by with_unfolding_all decide,
    ((registerC4 cProb false 1 aSt cBest).2 (by with_unfolding_all decide)
      (by with_unfolding_all decide)).2⟩⟩

/-- C5 witness: the theorem applied to a concrete converging tail (deltaP of
squared magnitude 0, below the threshold: the phase breaks without touching
p) and to the concrete continuing first iteration of the constant-error run
(whose applied deltaP failed the threshold). -/
theorem registerC5_witness :
    (npdot (deltaPcalc (dProb.jacobian 0 aSt.p) [0] aSt.alpha)
        (deltaPcalc (dProb.jacobian 0 aSt.p) [0] aSt.alpha) < 1 / 10000 ∧
      (tailPhase dProb aSt 0 [0]).2 = false ∧
      (tailPhase dProb aSt 0 [0]).1.p = aSt.p) ∧
    ((stepIter cProb false 0 cSt0).2 = true ∧
      ∃ q, (stepIter cProb false 0 cSt0).1.p
          = vecAdd q ((stepIter cProb false 0 cSt0).1.deltaP) ∧
        ¬ npdot ((stepIter cProb false 0 cSt0).1.deltaP)
            ((stepIter cProb false 0 cSt0).1.deltaP) < 1 / 10000) :=
  ⟨⟨by with_unfolding_all decide,
    ((registerC5 dProb aSt cSt0 0 [0] false 0 0).2.1
      (by with_unfolding_all decide)).1,
    ((registerC5 dProb aSt cSt0 0 [0] false 0 0).2.1
      (by with_unfolding_all decide)).2.1⟩,
   ⟨by with_unfolding_all decide,
    (registerC5 cProb aSt cSt0 0 [0] false 0 0).2.2.2.2
      (by with_unfolding_all decide)⟩⟩

/-- C10 witness: the amended theorem applied to the concrete run states: the
initial state is aliased; the first iteration (aliased, continuing) writes
p + deltaP into the caller's array; the non-improving second iteration ends
the aliasing; and from the detached third-iteration state on the caller's
array is never changed again. -/
theorem registerC10_witness :
    ((mkInitState cProb (some [1]) (some 0)).pAliased = true ∧
     (mkInitState cProb (some [1]) (some 0)).caller = [1]) ∧
    (cSt2.pAliased = false ∧ (stepIter cProb false 2 cSt2).1.caller = cSt2.caller) ∧
    (cSt1.search ≠ [] ∧ cSt1.bestStep = some cBest ∧
      ¬ iterError cProb cSt1 < cBest.error ∧ cSt1.badSteps + 1 ≤ MAX_BAD ∧
      (stepIter cProb false 1 cSt1).1.pAliased = false) ∧
    (cSt0.pAliased = true ∧ (stepIter cProb false 0 cSt0).2 = true ∧
      (stepIter cProb false 0 cSt0).1.caller
        = vecAdd cSt0.p ((stepIter cProb false 0 cSt0).1.deltaP)) :=
  ⟨(registerC10_amended cProb false 0 cSt0 cBest [1] (some 0)).1,
   ⟨by with_unfolding_all decide,
    ((registerC10_amended cProb false 2 cSt2 cBest [1] (some 0)).2.1
      (by with_unfolding_all decide)).1⟩,
   ⟨by with_unfolding_all decide, by with_unfolding_all decide,
    by with_unfolding_all decide, by with_unfolding_all decide,
    (registerC10_amended cProb false 1 cSt1 cBest [1] (some 0)).2.2.1
      (by with_unfolding_all decide) (by with_unfolding_all decide)
      (by with_unfolding_all decide) (by with_unfolding_all decide)⟩,
   ⟨rfl, by with_unfolding_all decide,
    (registerC10_amended cProb false 0 cSt0 cBest [1] (some 0)).2.2.2 rfl
      (by with_unfolding_all decide) (by with_unfolding_all decide)⟩⟩
